import Mathlib

/-!
Shallow embedding of the `hazeater` trading core and proofs about it.

The embedding covers:
* the value types of `src/hazeater/core/types.py` (`Bar`, `Position`,
  `OrderSpec`, `ExitDecision`, the `Side` / `ExitActionType` enums);
* the windowed feature engine of
  `src/hazeater/features/feature_extractor_base.py`
  (`_bar_to_row`, `_normalize_frame`, `update_bar`, `ready`,
  `compute_features`, `build_frame_from_dataframe`, `build_frame_from_feed`);
* the decision loop of `src/hazeater/engine/engine.py` (`run_loop`),
  instrumented with an explicit event trace so that ordering properties
  (exit before entry, equity re-read) are statable;
* the timeframe resolution of `src/hazeater/timeframes.py`,
  `src/hazeater/feeds/mt5_feed.py` and `src/hazeater/data/get_rates.py`.

Python floats and timestamps are modelled by `Rat`; no claim depends on
floating-point rounding, only on values being copied around unchanged.
A pandas `DataFrame` held by the extractor is modelled by the list of its
base-column rows (`List Row`); the pluggable derived-column computation
`_on_update` is modelled as a function from the retained base rows to the
per-row values of the `feature_names` columns (in the source it mutates
`self.df` by assigning whole derived columns recomputed from the base
columns, so for a pure computation the derived part of the frame is a
function of the base rows).
-/

namespace Hazeater

/-- Numeric/timestamp value type (Python `float` / `datetime`). -/
abbrev Val := Rat

/-- `Side` enum from `core/types.py`. -/
inductive Side where
  | LONG
  | SHORT
  | FLAT
deriving DecidableEq, Repr

/-- `Bar` dataclass from `core/types.py`. -/
structure Bar where
  time : Val
  «open» : Val
  high : Val
  low : Val
  close : Val
  spread : Val
  tick_volume : Val
  real_volume : Option Val
deriving DecidableEq, Repr

/-- `OrderSpec` dataclass from `core/types.py`. -/
structure OrderSpec where
  symbol : String
  side : Side
  volume : Val
  entry_price : Option Val
  sl : Val
  tp : Val
  comment : String
deriving DecidableEq, Repr

/-- `Position` dataclass from `core/types.py`. -/
structure Position where
  symbol : String
  side : Side
  volume : Val
  entry_price : Val
  sl : Val
  tp : Val
  open_time : Val
  close_price : Option Val
  close_time : Option Val
  position_id : Option Int
deriving DecidableEq, Repr

/-- `ExitActionType` enum from `core/types.py`. -/
inductive ExitActionType where
  | HOLD
  | CLOSE
  | UPDATE_SL_TP
  | PARTIAL_CLOSE
deriving DecidableEq, Repr

/-- `ExitDecision` dataclass from `core/types.py`. -/
structure ExitDecision where
  action : ExitActionType
  new_sl : Option Val
  new_tp : Option Val
  close_volume : Option Val
  reason : String
deriving DecidableEq, Repr

/-- One row of the extractor's internal `DataFrame`, holding the nine base
columns produced by `_bar_to_row` / `_normalize_frame` (`volume` is the
backward-compatibility alias of `tick_volume`). -/
structure Row where
  time : Val
  «open» : Val
  high : Val
  low : Val
  close : Val
  spread : Val
  tick_volume : Val
  real_volume : Option Val
  volume : Val
deriving DecidableEq, Repr

/-- An input `DataFrame` as handed to `build_frame_from_dataframe`: each
column is either absent (`none`) or present as a list of per-row values
(`real_volume` entries may be `pd.NA`, hence `Option Val`). -/
structure RawFrame where
  time : Option (List Val)
  «open» : Option (List Val)
  high : Option (List Val)
  low : Option (List Val)
  close : Option (List Val)
  spread : Option (List Val)
  tick_volume : Option (List Val)
  real_volume : Option (List (Option Val))
  volume : Option (List Val)
deriving DecidableEq, Repr

/-- The feature `DataFrame` returned by the bulk helpers: its column names
and, for each remaining row, the values of those columns. -/
structure FeatFrame where
  cols : List String
  rows : List (List Val)
deriving DecidableEq, Repr

/-- Configuration of a concrete `FeatureExtractorBase` subclass: the
retention window passed to `__init__`, the abstract `min_bars` and
`feature_names` properties, and the pluggable `_on_update` computation,
modelled as the function taking the retained base rows to the values of
the `feature_names` columns for each retained row. -/
structure ExtractorCfg where
  window : Option Nat
  min_bars : Nat
  feature_names : List String
  _on_update : List Row → List (List Val)

/-- `FeatureExtractorBase._bar_to_row`: convert one `Bar` into one row of
the internal frame (`volume` duplicates `tick_volume` for backward
compatibility). -/
def _bar_to_row (b : Bar) : Row :=
  { time := b.time
    «open» := b.«open»
    high := b.high
    low := b.low
    close := b.close
    spread := b.spread
    tick_volume := b.tick_volume
    real_volume := b.real_volume
    volume := b.tick_volume }

/-- The names of the required base columns that are absent from `raw`, in
the order `_normalize_frame` checks them
(`["time", "open", "high", "low", "close", "spread"]`). -/
def requiredMissing (raw : RawFrame) : List String :=
  (if raw.time.isNone then ["time"] else [])
    ++ (if raw.«open».isNone then ["open"] else [])
    ++ (if raw.high.isNone then ["high"] else [])
    ++ (if raw.low.isNone then ["low"] else [])
    ++ (if raw.close.isNone then ["close"] else [])
    ++ (if raw.spread.isNone then ["spread"] else [])

/-- The `ValueError` message raised by `_normalize_frame` when required
columns are missing. -/
def missingColsMsg (raw : RawFrame) : String :=
  "Missing required columns: " ++ String.intercalate ", " (requiredMissing raw)

/-- `FeatureExtractorBase._normalize_frame`: check the six required base
columns, fill the optional ones (`tick_volume` with `0.0`, `real_volume`
with `pd.NA`, `volume` with a copy of `tick_volume`), and return the rows
of the normalized frame.  Raises `ValueError` (modelled as `.error`) when
a required column is missing. -/
def _normalize_frame (raw : RawFrame) : Except String (List Row) :=
  match raw.time, raw.«open», raw.high, raw.low, raw.close, raw.spread with
  | some t, some o, some h, some l, some c, some sp =>
    let n := t.length
    let tv := raw.tick_volume.getD (List.replicate n 0)
    let rv := raw.real_volume.getD (List.replicate n none)
    let vol := raw.volume.getD tv
    .ok ((List.range n).map fun i =>
      { time := t.getD i 0
        «open» := o.getD i 0
        high := h.getD i 0
        low := l.getD i 0
        close := c.getD i 0
        spread := sp.getD i 0
        tick_volume := tv.getD i 0
        real_volume := rv.getD i none
        volume := vol.getD i 0 })
  | _, _, _, _, _, _ => .error (missingColsMsg raw)

/-- `FeatureExtractorBase.update_bar`: append the bar's row and, when a
retention window is configured and exceeded, keep only the trailing
`window` rows (`df.tail(window)`).  The subsequent `_on_update()` call
re-derives the feature columns from the retained base rows, so the state
is fully captured by the base rows. -/
def update_bar (cfg : ExtractorCfg) (s : List Row) (b : Bar) : List Row :=
  let s' := s ++ [_bar_to_row b]
  match cfg.window with
  | some w => if w < s'.length then s'.drop (s'.length - w) else s'
  | none => s'

/-- `FeatureExtractorBase.update_bars`: feed several bars in order. -/
def update_bars (cfg : ExtractorCfg) (s : List Row) (bars : List Bar) : List Row :=
  bars.foldl (update_bar cfg) s

/-- `FeatureExtractorBase.ready`: true once at least `min_bars` rows are
retained. -/
def ready (cfg : ExtractorCfg) (s : List Row) : Bool :=
  cfg.min_bars ≤ s.length

/-- `FeatureExtractorBase.compute_features`: the feature values of the last
retained row, as a `RuntimeError` (`.error`) when `ready()` is false; the
`IndexError` of `df.iloc[-1]` on an empty frame is the second error case. -/
def compute_features (cfg : ExtractorCfg) (s : List Row) : Except String (List Val) :=
  if ready cfg s = false then
    .error "FeatureExtractor not ready: not enough bars."
  else
    match (cfg._on_update s).getLast? with
    | some v => .ok v
    | none => .error "single positional indexer is out-of-bounds"

/-- `FeatureExtractorBase.build_frame_from_dataframe`: reset the retained
table, normalize the input, optionally apply the retention window, run
`_on_update` once over the whole table, project the `feature_names`
columns and drop the warm-up prefix of `min_bars - 1` rows.  The result is
paired with the final retained state (`self.df`'s base rows): the initial
`self.reset()` clears the state before normalization, so a normalization
failure leaves the retained table empty. -/
def build_frame_from_dataframe (cfg : ExtractorCfg) (s : List Row)
    (raw : RawFrame) (apply_window : Bool) :
    Except String FeatFrame × List Row :=
  match _normalize_frame raw with
  | .error e => (.error e, [])
  | .ok rows =>
    let rows :=
      if apply_window then
        match cfg.window with
        | some w => if w < rows.length then rows.drop (rows.length - w) else rows
        | none => rows
      else rows
    let feats := cfg._on_update rows
    let feats := if 1 < cfg.min_bars then feats.drop (cfg.min_bars - 1) else feats
    (.ok ⟨cfg.feature_names, feats⟩, rows)

/-- The `RawFrame` of `pd.DataFrame(rows)` for a list of `_bar_to_row`
dictionaries: every base column present, taken from the rows. -/
def rawOfRows (rows : List Row) : RawFrame :=
  { time := some (rows.map (·.time))
    «open» := some (rows.map (·.«open»))
    high := some (rows.map (·.high))
    low := some (rows.map (·.low))
    close := some (rows.map (·.close))
    spread := some (rows.map (·.spread))
    tick_volume := some (rows.map (·.tick_volume))
    real_volume := some (rows.map (·.real_volume))
    volume := some (rows.map (·.volume)) }

/-- A bar sequence presented as one bulk table (the frame
`pd.DataFrame([_bar_to_row(b) for b in bars])`). -/
def rawOfBars (bars : List Bar) : RawFrame :=
  rawOfRows (bars.map _bar_to_row)

/-- `FeatureExtractorBase.build_frame_from_feed`: drain the feed, and on an
empty feed return an empty frame whose columns are `feature_names` without
touching the retained state or the derived-column computation; otherwise
delegate to `build_frame_from_dataframe`. -/
def build_frame_from_feed (cfg : ExtractorCfg) (s : List Row) (feed : List Bar) :
    Except String FeatFrame × List Row :=
  let rows := feed.map _bar_to_row
  if rows.isEmpty then (.ok ⟨cfg.feature_names, []⟩, s)
  else build_frame_from_dataframe cfg s (rawOfRows rows) false

/-- One step of the streaming loop from the class docstring and the test
suite: `update_bar(bar)`, then record `compute_features()` when
`ready()`. The accumulator carries the retained rows and the records. -/
def streamStep (cfg : ExtractorCfg) (p : List Row × List (Except String (List Val)))
    (b : Bar) : List Row × List (Except String (List Val)) :=
  let s' := update_bar cfg p.1 b
  (s', if ready cfg s' then p.2 ++ [compute_features cfg s'] else p.2)

/-- The sequence of feature rows recorded by streaming a bar sequence
through a fresh extractor. -/
def streamOutputs (cfg : ExtractorCfg) (bars : List Bar) :
    List (Except String (List Val)) :=
  (bars.foldl (streamStep cfg) ([], [])).2

/-- The derived-column computation produces one entry per retained row. -/
def LengthPreserving (F : List Row → List (List Val)) : Prop :=
  ∀ rows : List Row, (F rows).length = rows.length

/-- The derived-column computation is causal: the values for a prefix of
the table are the prefix of the values for the whole table (row `i`
depends only on rows `0..i`). -/
def Causal (F : List Row → List (List Val)) : Prop :=
  ∀ (rows : List Row) (k : Nat), F (rows.take k) = (F rows).take k

/-- One append to the decision loop's `deque(maxlen=w)`: the oldest
element is evicted when the bound would be exceeded. -/
def pushWin (w : Nat) (xs : List α) (x : α) : List α :=
  let ys := xs ++ [x]
  if w < ys.length then ys.drop (ys.length - w) else ys

/-- `BrokerBase` from `broker/broker_base.py`, as a record of operations
over an abstract broker state `β` (the concrete backend owns the state;
the loop only calls these methods). -/
structure Broker (β : Type) where
  get_equity : β → Val
  get_positions : β → String → List Position
  execute_entry : β → OrderSpec → Bar → β
  apply_exit_decision : β → Position → ExitDecision → Bar → β

/-- `StrategyBase` from `strategy/strategy_base.py`: pure decision
functions over the window, equity and positions. -/
structure Strategy where
  decide_entry : List Bar → Val → List Position → Option OrderSpec
  decide_exit : List Bar → Val → Position → Option ExitDecision

/-- Observable events of one `run_loop` iteration, in the order the loop
performs them: broker reads, strategy calls and broker mutations. -/
inductive Ev where
  | getEquity (e : Val)
  | getPositions (symbol : String) (ps : List Position)
  | decideExit (pos : Position) (d : Option ExitDecision)
  | applyExit (pos : Position) (d : ExitDecision)
  | decideEntry (equity : Val) (ps : List Position) (o : Option OrderSpec)
  | executeEntry (o : OrderSpec)
deriving DecidableEq, Repr

/-- The exit sweep of `run_loop`: for each position of the snapshot, ask
`strategy.decide_exit` and apply any returned decision immediately via
`broker.apply_exit_decision`.  Returns the broker state after the sweep
and the trace of the sweep's events. -/
def exitSweep (bk : Broker β) (st : Strategy) (bars_list : List Bar)
    (equity : Val) (bar : Bar) (s : β) (positions : List Position) :
    β × List Ev :=
  positions.foldl
    (fun acc pos =>
      match st.decide_exit bars_list equity pos with
      | none => (acc.1, acc.2 ++ [Ev.decideExit pos none])
      | some d =>
        (bk.apply_exit_decision acc.1 pos d bar,
         acc.2 ++ [Ev.decideExit pos (some d), Ev.applyExit pos d]))
    (s, [])

/-- The body of `run_loop` for one incoming bar: append to the window;
during warm-up do nothing else; otherwise read equity and positions, run
the exit sweep, re-read equity and positions, ask for one entry and apply
it.  Returns the new window, the new broker state and the event trace of
this bar. -/
def stepBar (bk : Broker β) (st : Strategy) (symbol : String)
    (window_size : Nat) (w : List Bar) (s : β) (bar : Bar) :
    List Bar × β × List Ev :=
  let w' := pushWin window_size w bar
  if w'.length < window_size then (w', s, [])
  else
    let equity := bk.get_equity s
    let positions := bk.get_positions s symbol
    let es := exitSweep bk st w' equity bar s positions
    let equity2 := bk.get_equity es.1
    let positions2 := bk.get_positions es.1 symbol
    let o := st.decide_entry w' equity2 positions2
    let s2 := match o with | none => es.1 | some ord => bk.execute_entry es.1 ord bar
    let entryTr : List Ev := match o with | none => [] | some ord => [Ev.executeEntry ord]
    (w', s2,
      [Ev.getEquity equity, Ev.getPositions symbol positions]
        ++ es.2
        ++ [Ev.getEquity equity2, Ev.getPositions symbol positions2,
            Ev.decideEntry equity2 positions2 o]
        ++ entryTr)

/-- Threading of one `stepBar` result through the loop's accumulated
window, broker state and trace. -/
def loopAcc (bk : Broker β) (st : Strategy) (symbol : String)
    (window_size : Nat) (acc : List Bar × β × List Ev) (bar : Bar) :
    List Bar × β × List Ev :=
  let r := stepBar bk st symbol window_size acc.1 acc.2.1 bar
  (r.1, r.2.1, acc.2.2 ++ r.2.2)

/-- `run_loop` from `engine/engine.py`, driven by a finite feed (the list
of bars `feed.iter_bars()` yields): fold the loop body over the feed from
an empty window, concatenating the per-bar traces. -/
def run_loop (bk : Broker β) (st : Strategy) (symbol : String)
    (window_size : Nat) (feed : List Bar) (s : β) :
    List Bar × β × List Ev :=
  feed.foldl (loopAcc bk st symbol window_size) ([], s, [])

/- Timeframe constants of the external `MetaTrader5` package, as imported
by `timeframes.py` (their concrete values never matter to the claims). -/
namespace mt5

def TIMEFRAME_M1 : Int := 1
def TIMEFRAME_M2 : Int := 2
def TIMEFRAME_M3 : Int := 3
def TIMEFRAME_M4 : Int := 4
def TIMEFRAME_M5 : Int := 5
def TIMEFRAME_M6 : Int := 6
def TIMEFRAME_M10 : Int := 10
def TIMEFRAME_M12 : Int := 12
def TIMEFRAME_M15 : Int := 15
def TIMEFRAME_M20 : Int := 20
def TIMEFRAME_M30 : Int := 30
def TIMEFRAME_H1 : Int := 16385
def TIMEFRAME_H2 : Int := 16386
def TIMEFRAME_H3 : Int := 16387
def TIMEFRAME_H4 : Int := 16388
def TIMEFRAME_H6 : Int := 16390
def TIMEFRAME_H8 : Int := 16392
def TIMEFRAME_H12 : Int := 16396
def TIMEFRAME_D1 : Int := 16408
def TIMEFRAME_W1 : Int := 32769
def TIMEFRAME_MN1 : Int := 49153

end mt5

/-- `TIMEFRAME_MAP` from `timeframes.py` (association list; dict keys are
unique). -/
def TIMEFRAME_MAP : List (String × Int) :=
  [("m1", mt5.TIMEFRAME_M1), ("m2", mt5.TIMEFRAME_M2), ("m3", mt5.TIMEFRAME_M3),
   ("m4", mt5.TIMEFRAME_M4), ("m5", mt5.TIMEFRAME_M5), ("m6", mt5.TIMEFRAME_M6),
   ("m10", mt5.TIMEFRAME_M10), ("m12", mt5.TIMEFRAME_M12), ("m15", mt5.TIMEFRAME_M15),
   ("m20", mt5.TIMEFRAME_M20), ("m30", mt5.TIMEFRAME_M30),
   ("h1", mt5.TIMEFRAME_H1), ("h2", mt5.TIMEFRAME_H2), ("h3", mt5.TIMEFRAME_H3),
   ("h4", mt5.TIMEFRAME_H4), ("h6", mt5.TIMEFRAME_H6), ("h8", mt5.TIMEFRAME_H8),
   ("h12", mt5.TIMEFRAME_H12), ("d1", mt5.TIMEFRAME_D1), ("w1", mt5.TIMEFRAME_W1),
   ("mn1", mt5.TIMEFRAME_MN1)]

/-- `Mt5Feed._resolve_timeframe`: a string name must be a key of
`TIMEFRAME_MAP` (else `ValueError`), an integer is passed through. -/
def _resolve_timeframe (tf : String ⊕ Int) : Except String Int :=
  match tf with
  | .inl s =>
    match TIMEFRAME_MAP.lookup s with
    | none => .error ("Unsupported timeframe name: " ++ s)
    | some v => .ok v
  | .inr i => .ok i

/-- The constructor of `Mt5Feed` up to the initial buffer fill, in source
order: resolve the timeframe first, then `mt5.initialize`
(`initRes`, an external effect), then the initial `copy_rates_range`
fetch (`copy_rates_range`, an external effect returning `none` on
failure).  Returns the resolved timeframe and the initial buffer. -/
def mt5FeedInit (tf : String ⊕ Int) (initRes : Except String Unit)
    (copy_rates_range : Int → Option (List Bar)) :
    Except String (Int × List Bar) :=
  match _resolve_timeframe tf with
  | .error e => .error e
  | .ok t =>
    match initRes with
    | .error e => .error e
    | .ok _ =>
      match copy_rates_range t with
      | none => .error "MT5 copy_rates_range failed"
      | some rates => .ok (t, rates)

/-- `fetch_rates_by_name` from `data/get_rates.py`: reject unknown
timeframe names before any fetch, otherwise call `fetch_rates` (an
external effect, abstracted as a function of the mapped constant). -/
def fetch_rates_by_name (timeframe_name : String)
    (fetch_rates : Int → Except String RawFrame) : Except String RawFrame :=
  match TIMEFRAME_MAP.lookup timeframe_name with
  | none => .error ("Unsupported timeframe " ++ timeframe_name)
  | some tf => fetch_rates tf

end Hazeater

deriving instance DecidableEq for Except

namespace Hazeater

attribute [ext] Row

/-! ### Helper lemmas -/

theorem map_getD_of_lt {α : Type} (f : Row → α) (rows : List Row) (i : Nat)
    (d : α) (h : i < rows.length) : (rows.map f).getD i d = f rows[i] := by
  rw [List.getD_eq_getElem _ _ (by simpa using h), List.getElem_map]

theorem update_bar_window_none (cfg : ExtractorCfg) (hw : cfg.window = none)
    (s : List Row) (b : Bar) : update_bar cfg s b = s ++ [_bar_to_row b] := by
  simp [update_bar, hw]

theorem update_bars_window_none (cfg : ExtractorCfg) (hw : cfg.window = none)
    (s : List Row) (bars : List Bar) :
    update_bars cfg s bars = s ++ bars.map _bar_to_row := by
  induction bars generalizing s with
  | nil => simp [update_bars]
  | cons b bs ih =>
    show update_bars cfg (update_bar cfg s b) bs = _
    rw [ih, update_bar_window_none cfg hw]
    simp

theorem normalize_rawOfRows (rows : List Row) :
    _normalize_frame (rawOfRows rows) = .ok rows := by
  have key : (List.range (rows.map (·.time)).length).map (fun i =>
      ({ time := (rows.map (·.time)).getD i 0
         «open» := (rows.map (·.«open»)).getD i 0
         high := (rows.map (·.high)).getD i 0
         low := (rows.map (·.low)).getD i 0
         close := (rows.map (·.close)).getD i 0
         spread := (rows.map (·.spread)).getD i 0
         tick_volume := (rows.map (·.tick_volume)).getD i 0
         real_volume := (rows.map (·.real_volume)).getD i none
         volume := (rows.map (·.volume)).getD i 0 } : Row)) = rows := by
    apply List.ext_getElem
    · simp
    · intro i h1 h2
      simp only [List.getElem_map, List.getElem_range]
      have hi : i < rows.length := h2
      rw [map_getD_of_lt (·.time) rows i 0 hi,
          map_getD_of_lt (·.«open») rows i 0 hi,
          map_getD_of_lt (·.high) rows i 0 hi,
          map_getD_of_lt (·.low) rows i 0 hi,
          map_getD_of_lt (·.close) rows i 0 hi,
          map_getD_of_lt (·.spread) rows i 0 hi,
          map_getD_of_lt (·.tick_volume) rows i 0 hi,
          map_getD_of_lt (·.real_volume) rows i none hi,
          map_getD_of_lt (·.volume) rows i 0 hi]
  exact congrArg Except.ok key

theorem warmup_drop (m : Nat) (l : List α) :
    (if 1 < m then l.drop (m - 1) else l) = l.drop (m - 1) := by
  split
  · rfl
  · have h : m - 1 = 0 := by omega
    rw [h, List.drop_zero]

theorem bulk_rawOfRows (cfg : ExtractorCfg) (s : List Row) (rows : List Row) :
    build_frame_from_dataframe cfg s (rawOfRows rows) false
      = (.ok ⟨cfg.feature_names, (cfg._on_update rows).drop (cfg.min_bars - 1)⟩,
         rows) := by
  unfold build_frame_from_dataframe
  rw [normalize_rawOfRows]
  simp [warmup_drop]

theorem streamFold_fst (cfg : ExtractorCfg) (bars : List Bar) :
    ∀ p : List Row × List (Except String (List Val)),
      (bars.foldl (streamStep cfg) p).1 = update_bars cfg p.1 bars := by
  induction bars with
  | nil => intro p; rfl
  | cons b bs ih =>
    intro p
    simp only [List.foldl_cons]
    rw [ih]
    rfl

theorem streamFold_snd (cfg : ExtractorCfg) (bars : List Bar) :
    ∀ (s : List Row) (out : List (Except String (List Val))),
      (bars.foldl (streamStep cfg) (s, out)).2
        = out ++ (bars.foldl (streamStep cfg) (s, [])).2 := by
  induction bars with
  | nil => intro s out; simp
  | cons b bs ih =>
    intro s out
    simp only [List.foldl_cons, streamStep]
    cases hready : ready cfg (update_bar cfg s b) with
    | false =>
      simp only [hready, Bool.false_eq_true, if_false]
      exact ih _ out
    | true =>
      simp only [hready, if_true]
      rw [ih _ (out ++ [compute_features cfg (update_bar cfg s b)]),
          ih _ ([] ++ [compute_features cfg (update_bar cfg s b)])]
      simp

theorem streamOutputs_shape (cfg : ExtractorCfg)
    (hw : cfg.window = none)
    (hlen : LengthPreserving cfg._on_update)
    (hc : Causal cfg._on_update) (bars : List Bar) :
    streamOutputs cfg bars
      = ((cfg._on_update (bars.map _bar_to_row)).drop (cfg.min_bars - 1)).map
          Except.ok := by
  induction bars using List.reverseRecOn with
  | nil =>
    have h0 : cfg._on_update [] = [] := by
      rw [← List.length_eq_zero]
      exact hlen []
    simp [streamOutputs, h0]
  | append_singleton bs b ih =>
    have hstate : (bs.foldl (streamStep cfg) ([], [])).1 = bs.map _bar_to_row := by
      rw [streamFold_fst]
      simpa using update_bars_window_none cfg hw [] bs
    have hfold : streamOutputs cfg (bs ++ [b])
        = (streamStep cfg (bs.foldl (streamStep cfg) ([], [])) b).2 := by
      simp [streamOutputs, List.foldl_concat]
    set rows := bs.map _bar_to_row with hrowsdef
    have hrowsAll : (bs ++ [b]).map _bar_to_row = rows ++ [_bar_to_row b] := by
      simp [hrowsdef]
    set rowsAll := rows ++ [_bar_to_row b] with hrowsAlldef
    have hstep : update_bar cfg (bs.foldl (streamStep cfg) ([], [])).1 b = rowsAll := by
      rw [hstate, update_bar_window_none cfg hw]
    have hlenAll : (cfg._on_update rowsAll).length = rows.length + 1 := by
      rw [hlen]
      simp [hrowsAlldef]
    have hFprev : cfg._on_update rows = (cfg._on_update rowsAll).take rows.length := by
      have h1 := hc rowsAll rows.length
      rw [hrowsAlldef, List.take_left] at h1
      rw [hrowsAlldef]
      exact h1
    rw [hfold]
    show (if ready cfg (update_bar cfg (bs.foldl (streamStep cfg) ([], [])).1 b) = true
          then (bs.foldl (streamStep cfg) ([], [])).2
            ++ [compute_features cfg
                  (update_bar cfg (bs.foldl (streamStep cfg) ([], [])).1 b)]
          else (bs.foldl (streamStep cfg) ([], [])).2) = _
    rw [hrowsAll, hstep]
    have hsnd : (bs.foldl (streamStep cfg) ([], [])).2 = streamOutputs cfg bs := rfl
    by_cases hm : cfg.min_bars ≤ rows.length + 1
    · have hready : ready cfg rowsAll = true := by
        simp only [ready, hrowsAlldef, List.length_append, List.length_cons,
          List.length_nil, decide_eq_true_eq]
        omega
      have hlt : rows.length < (cfg._on_update rowsAll).length := by omega
      have hv : (cfg._on_update rowsAll).getLast? = some (cfg._on_update rowsAll)[rows.length] := by
        rw [List.getLast?_eq_getElem?, hlenAll]
        simp [List.getElem?_eq_getElem hlt]
      have hcf : compute_features cfg rowsAll
          = .ok (cfg._on_update rowsAll)[rows.length] := by
        unfold compute_features
        rw [hready]
        simp [hv]
      have hsplit : cfg._on_update rowsAll
          = cfg._on_update rows ++ [(cfg._on_update rowsAll)[rows.length]] := by
        rw [hFprev]
        conv_lhs => rw [← List.take_append_drop rows.length (cfg._on_update rowsAll)]
        congr 1
        rw [List.drop_eq_getElem_cons hlt, List.drop_eq_nil_of_le (by omega)]
      have hrowslen : rows.length = bs.length := by
        simp [hrowsdef]
      have hdrop : (cfg._on_update rowsAll).drop (cfg.min_bars - 1)
          = (cfg._on_update rows).drop (cfg.min_bars - 1)
            ++ [(cfg._on_update rowsAll)[rows.length]] := by
        conv_lhs => rw [hsplit]
        rw [List.drop_append_of_le_length (by rw [hlen]; omega)]
      rw [hready, if_pos rfl, hsnd, ih, hcf, hdrop]
      simp
    · have hready : ready cfg rowsAll = false := by
        simp only [ready, hrowsAlldef, List.length_append, List.length_cons,
          List.length_nil, decide_eq_false_iff_not]
        omega
      rw [hready]
      simp only [Bool.false_eq_true, if_false]
      rw [hsnd, ih]
      have h1 : (cfg._on_update rows).drop (cfg.min_bars - 1) = [] := by
        apply List.drop_eq_nil_of_le
        rw [hlen]
        omega
      have h2 : (cfg._on_update rowsAll).drop (cfg.min_bars - 1) = [] := by
        apply List.drop_eq_nil_of_le
        omega
      rw [h1, h2]

theorem pushWin_drop (w : Nat) (xs : List α) (x : α) :
    pushWin w (xs.drop (xs.length - w)) x = (xs ++ [x]).drop (xs.length + 1 - w) := by
  unfold pushWin
  have hlen : (xs.drop (xs.length - w)).length = xs.length - (xs.length - w) :=
    List.length_drop _ _
  by_cases hw : w ≤ xs.length
  · have hL : (xs.drop (xs.length - w)).length = w := by omega
    by_cases hw0 : w = 0
    · subst hw0
      have hp : xs.drop (xs.length - 0) = [] := by simp
      have hr : (xs ++ [x]).drop (xs.length + 1 - 0) = [] :=
        List.drop_eq_nil_of_le (by simp)
      rw [hp, hr]
      simp
    · rw [if_pos (by simp [hL])]
      have h1 : (xs.drop (xs.length - w) ++ [x]).length - w = 1 := by
        simp [hL]
      rw [h1, List.drop_append_of_le_length (by omega),
          List.drop_drop, List.drop_append_of_le_length (by omega)]
      congr 2
      omega
  · have hd : xs.length - w = 0 := by omega
    have hd2 : xs.length + 1 - w = 0 := by omega
    rw [hd, List.drop_zero, if_neg (by simp; omega), hd2, List.drop_zero]

theorem foldl_pushWin (w : Nat) (xs : List α) :
    xs.foldl (pushWin w) [] = xs.drop (xs.length - w) := by
  induction xs using List.reverseRecOn with
  | nil => simp
  | append_singleton ys y ih =>
    rw [List.foldl_concat, ih, pushWin_drop]
    simp

theorem update_bar_window_some (cfg : ExtractorCfg) (w : Nat)
    (hw : cfg.window = some w) (s : List Row) (b : Bar) :
    update_bar cfg s b = pushWin w s (_bar_to_row b) := by
  simp [update_bar, pushWin, hw]

theorem update_bars_window_some (cfg : ExtractorCfg) (w : Nat)
    (hw : cfg.window = some w) (bars : List Bar) :
    update_bars cfg [] bars = (bars.map _bar_to_row).drop (bars.length - w) := by
  have hf : update_bar cfg = fun s b => pushWin w s (_bar_to_row b) :=
    funext fun s => funext fun b => update_bar_window_some cfg w hw s b
  rw [update_bars, hf, ← List.foldl_map _bar_to_row (pushWin w), foldl_pushWin]
  simp

theorem stepBar_fst (bk : Broker β) (st : Strategy) (symbol : String)
    (n : Nat) (w : List Bar) (s : β) (bar : Bar) :
    (stepBar bk st symbol n w s bar).1 = pushWin n w bar := by
  unfold stepBar
  by_cases h : (pushWin n w bar).length < n
  · rw [if_pos h]
  · rw [if_neg h]

theorem run_loop_fold_fst (bk : Broker β) (st : Strategy) (symbol : String)
    (n : Nat) (feed : List Bar) :
    ∀ acc : List Bar × β × List Ev,
      (feed.foldl (loopAcc bk st symbol n) acc).1 = feed.foldl (pushWin n) acc.1 := by
  induction feed with
  | nil => intro acc; rfl
  | cons b bs ih =>
    intro acc
    simp only [List.foldl_cons]
    rw [ih]
    congr 1
    exact stepBar_fst bk st symbol n acc.1 acc.2.1 b

theorem run_loop_window (bk : Broker β) (st : Strategy) (symbol : String)
    (n : Nat) (feed : List Bar) (s : β) :
    (run_loop bk st symbol n feed s).1 = feed.drop (feed.length - n) := by
  rw [run_loop, run_loop_fold_fst, ← foldl_pushWin]

theorem exitSweep_shape (bk : Broker β) (st : Strategy) (bars_list : List Bar)
    (equity : Val) (bar : Bar) (s : β) (ps : List Position) :
    exitSweep bk st bars_list equity bar s ps
      = (ps.foldl (fun acc pos =>
            match st.decide_exit bars_list equity pos with
            | none => acc
            | some d => bk.apply_exit_decision acc pos d bar) s,
         (ps.map (fun pos =>
            match st.decide_exit bars_list equity pos with
            | none => [Ev.decideExit pos none]
            | some d => [Ev.decideExit pos (some d), Ev.applyExit pos d])).flatten) := by
  suffices h : ∀ (s : β) (tr : List Ev),
      ps.foldl (fun acc pos =>
        match st.decide_exit bars_list equity pos with
        | none => (acc.1, acc.2 ++ [Ev.decideExit pos none])
        | some d =>
          (bk.apply_exit_decision acc.1 pos d bar,
           acc.2 ++ [Ev.decideExit pos (some d), Ev.applyExit pos d])) (s, tr)
      = (ps.foldl (fun acc pos =>
            match st.decide_exit bars_list equity pos with
            | none => acc
            | some d => bk.apply_exit_decision acc pos d bar) s,
         tr ++ (ps.map (fun pos =>
            match st.decide_exit bars_list equity pos with
            | none => [Ev.decideExit pos none]
            | some d => [Ev.decideExit pos (some d), Ev.applyExit pos d])).flatten) by
    rw [exitSweep, h s []]
    simp
  induction ps with
  | nil => intro s tr; simp
  | cons p ps ih =>
    intro s tr
    simp only [List.foldl_cons, List.map_cons, List.flatten_cons]
    cases hd : st.decide_exit bars_list equity p with
    | none =>
      simp only [hd]
      rw [ih]
      simp
    | some d =>
      simp only [hd]
      rw [ih]
      simp

/-! ### Concrete fixtures used by witnesses and counterexamples -/

/-- A bar whose prices all equal `c` (close is the only field the witness
extractor reads). -/
def mkBar (t c : Val) : Bar :=
  { time := t, «open» := c, high := c, low := c, close := c, spread := 1,
    tick_volume := 0, real_volume := none }

/-- Witness extractor: `min_bars = 3`, one feature column `close`, derived
causally as each row's close (a pure, length-preserving computation). -/
def cfgW : ExtractorCfg :=
  { window := none
    min_bars := 3
    feature_names := ["close"]
    _on_update := fun rows => rows.map (fun r => [r.close]) }

/-- The same computation with a retention window of 2 bars. -/
def cfgWin : ExtractorCfg :=
  { window := some 2
    min_bars := 3
    feature_names := ["close"]
    _on_update := fun rows => rows.map (fun r => [r.close]) }

/-- The bar sequence of the test suite: closes 100, 101, 102, 103, 104. -/
def barsW : List Bar :=
  [mkBar 0 100, mkBar 1 101, mkBar 2 102, mkBar 3 103, mkBar 4 104]

theorem cfgW_lengthPreserving : LengthPreserving cfgW._on_update := fun rows => by
  simp [cfgW]

theorem cfgW_causal : Causal cfgW._on_update := fun rows k => by
  simp [cfgW, List.map_take]

/-! ### Claims -/

/-- C1: for every bar sequence and every pure, causal derived-column
computation (one output entry per retained row, prefix-respecting),
streaming with no retention window — `update_bar` once per bar, recording
`compute_features()` each time `ready()` is true — produces exactly the
same sequence of feature rows as `build_frame_from_dataframe` applied to
the whole sequence as one table: both equal the derived rows of the full
table minus the `min_bars - 1` warm-up prefix. -/
theorem C1_streaming_bulk_equivalence (cfg : ExtractorCfg) (bars : List Bar)
    (hw : cfg.window = none)
    (hlen : LengthPreserving cfg._on_update)
    (hc : Causal cfg._on_update) :
    (build_frame_from_dataframe cfg [] (rawOfBars bars) false).1
      = .ok ⟨cfg.feature_names,
             (cfg._on_update (bars.map _bar_to_row)).drop (cfg.min_bars - 1)⟩
    ∧ streamOutputs cfg bars
      = ((cfg._on_update (bars.map _bar_to_row)).drop (cfg.min_bars - 1)).map
          Except.ok := by
  constructor
  · rw [rawOfBars, bulk_rawOfRows]
  · exact streamOutputs_shape cfg hw hlen hc bars

/-- Witness for C1: closes 100..104 with `min_bars = 3`; both paths yield
the three feature rows 102, 103, 104. -/
theorem C1_witness :
    (build_frame_from_dataframe cfgW [] (rawOfBars barsW) false).1
      = .ok ⟨["close"], [[102], [103], [104]]⟩
    ∧ streamOutputs cfgW barsW = [.ok [102], .ok [103], .ok [104]] := by
  have h := C1_streaming_bulk_equivalence cfgW barsW rfl cfgW_lengthPreserving
    cfgW_causal
  exact ⟨h.1.trans (by decide), h.2.trans (by decide)⟩

/-- C5: `ready()` is false exactly when fewer than `min_bars` rows are
retained; `compute_features()` while not ready raises the not-ready error;
when ready it returns the last derived row (the mapping of each feature
name to the last row's value). -/
theorem C5_ready_gating (cfg : ExtractorCfg) (s : List Row) :
    (ready cfg s = true ↔ cfg.min_bars ≤ s.length)
    ∧ (s.length < cfg.min_bars →
        compute_features cfg s
          = .error "FeatureExtractor not ready: not enough bars.")
    ∧ (cfg.min_bars ≤ s.length → ∀ v, (cfg._on_update s).getLast? = some v →
        compute_features cfg s = .ok v) := by
  refine ⟨by simp [ready], fun h => ?_, fun h v hv => ?_⟩
  · unfold compute_features
    rw [if_pos (by simp [ready]; omega)]
  · unfold compute_features
    rw [if_neg (by simp [ready]; omega)]
    rw [hv]

/-- Witness for C5: with `min_bars = 3`, two rows are not ready and
`compute_features` errors; three rows are ready and it returns the last
close. -/
theorem C5_witness :
    (((barsW.take 2).map _bar_to_row).length < cfgW.min_bars
      ∧ compute_features cfgW ((barsW.take 2).map _bar_to_row)
          = .error "FeatureExtractor not ready: not enough bars.")
    ∧ (cfgW.min_bars ≤ ((barsW.take 3).map _bar_to_row).length
      ∧ compute_features cfgW ((barsW.take 3).map _bar_to_row) = .ok [102]) := by
  refine ⟨⟨by decide, (C5_ready_gating cfgW _).2.1 (by decide)⟩,
    ⟨by decide, (C5_ready_gating cfgW _).2.2 (by decide) [102] (by decide)⟩⟩

/-- C7: for a table that normalizes to `n` rows with `n ≥ min_bars`, the
bulk path returns exactly `n - (min_bars - 1)` feature vectors, one per
row starting at row index `min_bars - 1`. -/
theorem C7_bulk_warmup_count (cfg : ExtractorCfg) (s : List Row)
    (raw : RawFrame) (rows : List Row)
    (hnorm : _normalize_frame raw = .ok rows)
    (hlen : LengthPreserving cfg._on_update)
    (hmin : cfg.min_bars ≤ rows.length) :
    (build_frame_from_dataframe cfg s raw false).1
      = .ok ⟨cfg.feature_names, (cfg._on_update rows).drop (cfg.min_bars - 1)⟩
    ∧ ((cfg._on_update rows).drop (cfg.min_bars - 1)).length
        = rows.length - (cfg.min_bars - 1)
    ∧ ∀ (i : Nat) (h : i < ((cfg._on_update rows).drop (cfg.min_bars - 1)).length),
        ((cfg._on_update rows).drop (cfg.min_bars - 1)).get ⟨i, h⟩
          = (cfg._on_update rows).get ⟨cfg.min_bars - 1 + i, by
              rw [List.length_drop] at h
              omega⟩ := by
  refine ⟨?_, ?_, ?_⟩
  · unfold build_frame_from_dataframe
    rw [hnorm]
    simp [warmup_drop]
  · rw [List.length_drop, hlen]
  · intro i h
    simp only [List.get_eq_getElem]
    exact List.getElem_drop _

/-- Witness for C7: 5 rows, `min_bars = 3`, bulk yields `5 - 2 = 3` rows
starting at index 2. -/
theorem C7_witness :
    (build_frame_from_dataframe cfgW [] (rawOfBars barsW) false).1
      = .ok ⟨["close"], [[102], [103], [104]]⟩
    ∧ ((cfgW._on_update (barsW.map _bar_to_row)).drop (cfgW.min_bars - 1)).length
        = (barsW.map _bar_to_row).length - (cfgW.min_bars - 1) := by
  have h := C7_bulk_warmup_count cfgW [] (rawOfBars barsW) (barsW.map _bar_to_row)
    (by rw [rawOfBars, normalize_rawOfRows]) cfgW_lengthPreserving (by decide)
  exact ⟨h.1.trans (by decide), h.2.1⟩

/-- C9: `build_frame_from_dataframe` is independent of the extractor's
prior streaming state: an extractor that has ingested any bar sequence via
`update_bar` and a fresh one return the same result and final state on the
same input frame (the call resets retained state first). -/
theorem C9_bulk_state_independent (cfg : ExtractorCfg) (bars : List Bar)
    (raw : RawFrame) (apply_window : Bool) :
    build_frame_from_dataframe cfg (update_bars cfg [] bars) raw apply_window
      = build_frame_from_dataframe cfg [] raw apply_window := rfl

/-- C10: `build_frame_from_feed` on a feed yielding no bars returns,
without error, an empty frame whose columns are exactly `feature_names`,
leaves the retained state untouched, and never invokes the derived-column
computation (the result is the same for every `_on_update`). -/
theorem C10_empty_feed (cfg : ExtractorCfg) (s : List Row)
    (F : List Row → List (List Val)) :
    build_frame_from_feed cfg s [] = (.ok ⟨cfg.feature_names, []⟩, s)
    ∧ build_frame_from_feed { cfg with _on_update := F } s []
        = (.ok ⟨cfg.feature_names, []⟩, s) := ⟨rfl, rfl⟩

/-- C2: in every active iteration of `run_loop` (window full), the event
trace of the bar is exactly: the pre-exit equity/position reads, then the
exit sweep's events, then a fresh equity read and position read taken from
the post-exit-sweep broker state, then the entry decision — whose equity
argument is that re-fetched post-exit equity — then the entry application;
so the entry decision observes the post-exit equity, never the pre-exit
value, and the order exit-evaluation, apply, re-read equity,
entry-evaluation, apply is strictly followed. -/
theorem C2_entry_sees_post_exit_equity (bk : Broker β) (st : Strategy)
    (symbol : String) (window_size : Nat) (w : List Bar) (s : β) (bar : Bar)
    (hfull : window_size ≤ (pushWin window_size w bar).length) :
    (stepBar bk st symbol window_size w s bar).2.2
      = [Ev.getEquity (bk.get_equity s),
         Ev.getPositions symbol (bk.get_positions s symbol)]
        ++ (exitSweep bk st (pushWin window_size w bar) (bk.get_equity s) bar s
              (bk.get_positions s symbol)).2
        ++ [Ev.getEquity (bk.get_equity
              (exitSweep bk st (pushWin window_size w bar) (bk.get_equity s) bar s
                (bk.get_positions s symbol)).1),
            Ev.getPositions symbol (bk.get_positions
              (exitSweep bk st (pushWin window_size w bar) (bk.get_equity s) bar s
                (bk.get_positions s symbol)).1 symbol),
            Ev.decideEntry
              (bk.get_equity
                (exitSweep bk st (pushWin window_size w bar) (bk.get_equity s) bar s
                  (bk.get_positions s symbol)).1)
              (bk.get_positions
                (exitSweep bk st (pushWin window_size w bar) (bk.get_equity s) bar s
                  (bk.get_positions s symbol)).1 symbol)
              (st.decide_entry (pushWin window_size w bar)
                (bk.get_equity
                  (exitSweep bk st (pushWin window_size w bar) (bk.get_equity s) bar s
                    (bk.get_positions s symbol)).1)
                (bk.get_positions
                  (exitSweep bk st (pushWin window_size w bar) (bk.get_equity s) bar s
                    (bk.get_positions s symbol)).1 symbol))]
        ++ (match st.decide_entry (pushWin window_size w bar)
              (bk.get_equity
                (exitSweep bk st (pushWin window_size w bar) (bk.get_equity s) bar s
                  (bk.get_positions s symbol)).1)
              (bk.get_positions
                (exitSweep bk st (pushWin window_size w bar) (bk.get_equity s) bar s
                  (bk.get_positions s symbol)).1 symbol) with
            | none => []
            | some ord => [Ev.executeEntry ord]) := by
  unfold stepBar
  rw [if_neg (by omega)]

/-- The broker state of the C2 witness scenario: total equity and the open
positions. -/
def posW : Position :=
  { symbol := "EURUSD", side := Side.LONG, volume := 1, entry_price := 100,
    sl := 90, tp := 110, open_time := 0, close_price := none, close_time := none,
    position_id := some 1 }

/-- A full-close exit decision. -/
def closeDec : ExitDecision :=
  { action := ExitActionType.CLOSE, new_sl := none, new_tp := none,
    close_volume := none, reason := "take profit" }

/-- Witness broker: closing any position realizes +500 of equity and
removes the position. -/
def bkScenario : Broker (Val × List Position) :=
  { get_equity := fun s => s.1
    get_positions := fun s _ => s.2
    execute_entry := fun s _ _ => s
    apply_exit_decision := fun s pos _ _ => (s.1 + 500, s.2.erase pos) }

/-- Witness strategy: always close, and size the entry as `equity / 1000`
so the entry order records the equity it observed. -/
def stScenario : Strategy :=
  { decide_entry := fun _ equity _ =>
      some { symbol := "EURUSD", side := Side.LONG, volume := equity / 1000,
             entry_price := none, sl := 0, tp := 0, comment := "" }
    decide_exit := fun _ _ _ => some closeDec }

/-- Witness for C2, the spec's scenario: pre-exit equity 10000, the close
realizes +500, and the entry decision computes its size from 10500. -/
theorem C2_witness :
    (stepBar bkScenario stScenario "EURUSD" 1 [] ((10000 : Val), [posW])
        (mkBar 0 100)).2.2
      = [Ev.getEquity 10000, Ev.getPositions "EURUSD" [posW],
         Ev.decideExit posW (some closeDec), Ev.applyExit posW closeDec,
         Ev.getEquity 10500, Ev.getPositions "EURUSD" [],
         Ev.decideEntry 10500 []
           (some { symbol := "EURUSD", side := Side.LONG, volume := 10500 / 1000,
                   entry_price := none, sl := 0, tp := 0, comment := "" }),
         Ev.executeEntry
           { symbol := "EURUSD", side := Side.LONG, volume := 10500 / 1000,
             entry_price := none, sl := 0, tp := 0, comment := "" }] := by
  refine (C2_entry_sees_post_exit_equity bkScenario stScenario "EURUSD" 1 []
    ((10000 : Val), [posW]) (mkBar 0 100) (by decide)).trans ?_
  norm_num [exitSweep, bkScenario, stScenario, pushWin, List.foldl_cons,
    List.foldl_nil, List.erase_cons_head]

/-- A hold decision, which `run_loop` still forwards to the broker. -/
def holdDec : ExitDecision :=
  { action := ExitActionType.HOLD, new_sl := none, new_tp := none,
    close_volume := none, reason := "" }

/-- Strategy that returns a hold decision for every position and no entry. -/
def stHold : Strategy :=
  { decide_entry := fun _ _ _ => none
    decide_exit := fun _ _ _ => some holdDec }

/-- Broker whose state counts `apply_exit_decision` invocations. -/
def bkCount : Broker Nat :=
  { get_equity := fun _ => 0
    get_positions := fun _ _ => [posW]
    execute_entry := fun n _ _ => n
    apply_exit_decision := fun n _ _ _ => n + 1 }

/-- C4 counterexample: with one open position and a strategy returning an
`ExitDecision` whose action is `hold`, `run_loop`'s bar step still invokes
`broker.apply_exit_decision` with that hold decision (the `applyExit`
event occurs and the backend state changes), contradicting the claim that
a decision is applied only when its action is non-hold and that a position
with a hold decision is left untouched by the backend. -/
theorem C4_counterexample :
    holdDec.action = ExitActionType.HOLD
    ∧ Ev.applyExit posW holdDec
        ∈ (stepBar bkCount stHold "EURUSD" 1 [] 0 (mkBar 0 100)).2.2
    ∧ (stepBar bkCount stHold "EURUSD" 1 [] 0 (mkBar 0 100)).2.1 ≠ 0 := by
  decide

/-- C4 (amended): in an active iteration, `strategy.decide_exit` is
consulted exactly once for every position of the start-of-bar snapshot, in
order, and each returned decision — hold included, since `run_loop` checks
only for `None` — is forwarded immediately to
`broker.apply_exit_decision`; a position for which the strategy returns no
decision contributes no backend call.  The sweep's state is the in-order
fold of the applied decisions and its trace is the per-position event
blocks in snapshot order. -/
theorem C4_exit_sweep_amended (bk : Broker β) (st : Strategy)
    (bars_list : List Bar) (equity : Val) (bar : Bar) (s : β)
    (ps : List Position) :
    exitSweep bk st bars_list equity bar s ps
      = (ps.foldl (fun acc pos =>
            match st.decide_exit bars_list equity pos with
            | none => acc
            | some d => bk.apply_exit_decision acc pos d bar) s,
         (ps.map (fun pos =>
            match st.decide_exit bars_list equity pos with
            | none => [Ev.decideExit pos none]
            | some d => [Ev.decideExit pos (some d), Ev.applyExit pos d])).flatten) :=
  exitSweep_shape bk st bars_list equity bar s ps

/-- A one-row bulk table with no `close` column. -/
def badRaw : RawFrame :=
  { time := some [0], «open» := some [100], high := some [101], low := some [99],
    close := none, spread := some [1], tick_volume := some [10],
    real_volume := some [none], volume := some [10] }

/-- A retained row for pre-populating an extractor. -/
def rowW : Row := _bar_to_row (mkBar 0 100)

/-- C3 counterexample: an extractor that already retains one row, given a
bulk table missing the required `close` column, reports the error — but
its retained table afterwards is empty, not the previous one-row table:
`build_frame_from_dataframe` runs `self.reset()` before `_normalize_frame`
raises, so the already-retained state is not left unmodified. -/
theorem C3_counterexample :
    (build_frame_from_dataframe cfgW [rowW] badRaw false).1
        = .error "Missing required columns: close"
    ∧ (build_frame_from_dataframe cfgW [rowW] badRaw false).2 = []
    ∧ ([rowW] : List Row) ≠ ([] : List Row) := by
  decide

/-- C3 (amended): when the bulk table is missing a required base column,
ingestion fails with the reported missing-columns error, and the retained
table is left empty — cleared by the initial `reset()` — whatever it held
before (rather than left unmodified, as originally claimed). -/
theorem C3_missing_column_rejects_and_clears (cfg : ExtractorCfg)
    (s : List Row) (raw : RawFrame) (apply_window : Bool)
    (hmiss : requiredMissing raw ≠ []) :
    build_frame_from_dataframe cfg s raw apply_window
      = (.error (missingColsMsg raw), []) := by
  unfold build_frame_from_dataframe _normalize_frame
  rcases raw with ⟨t, o, h, l, c, sp, tv, rv, vol⟩
  cases t <;> cases o <;> cases h <;> cases l <;> cases c <;> cases sp <;>
    simp_all [requiredMissing]

/-- Witness for C3 (amended) at the concrete malformed table. -/
theorem C3_witness :
    build_frame_from_dataframe cfgW [rowW] badRaw false
      = (.error (missingColsMsg badRaw), []) :=
  C3_missing_column_rejects_and_clears cfgW [rowW] badRaw false (by decide)

/-- A broker with no state, used where the claim only concerns the window. -/
def bkTriv : Broker Unit :=
  { get_equity := fun _ => 0
    get_positions := fun _ _ => []
    execute_entry := fun u _ _ => u
    apply_exit_decision := fun u _ _ _ => u }

/-- A strategy that never trades. -/
def stTriv : Strategy :=
  { decide_entry := fun _ _ _ => none
    decide_exit := fun _ _ _ => none }

/-- C6: feeding `w + k` bars into the decision loop's window or into an
extractor with retention window `w` leaves exactly `w` bars retained, in
original order, with exactly the oldest `k` evicted; and after any bar
sequence whatsoever the retained length never exceeds the bound. -/
theorem C6_window_eviction {β : Type} (w k : Nat) (bars : List Bar)
    (cfg : ExtractorCfg) (bk : Broker β) (st : Strategy) (symbol : String)
    (s : β) (hlen : bars.length = w + k) (hcfg : cfg.window = some w) :
    (run_loop bk st symbol w bars s).1 = bars.drop k
    ∧ (run_loop bk st symbol w bars s).1.length = w
    ∧ update_bars cfg [] bars = (bars.drop k).map _bar_to_row
    ∧ (update_bars cfg [] bars).length = w
    ∧ (∀ bars2 : List Bar, (run_loop bk st symbol w bars2 s).1.length ≤ w
        ∧ (update_bars cfg [] bars2).length ≤ w) := by
  have hk : bars.length - w = k := by omega
  refine ⟨?_, ?_, ?_, ?_, ?_⟩
  · rw [run_loop_window, hk]
  · rw [run_loop_window, hk, List.length_drop]
    omega
  · rw [update_bars_window_some cfg w hcfg, hk, List.map_drop]
  · rw [update_bars_window_some cfg w hcfg, List.length_drop, List.length_map]
    omega
  · intro bars2
    constructor
    · rw [run_loop_window, List.length_drop]
      omega
    · rw [update_bars_window_some cfg w hcfg, List.length_drop, List.length_map]
      omega

/-- Witness for C6: 5 = 2 + 3 bars with window 2 leave the last two bars,
in order, in both the loop window and the extractor. -/
theorem C6_witness :
    (run_loop bkTriv stTriv "EURUSD" 2 barsW ()).1 = [mkBar 3 103, mkBar 4 104]
    ∧ update_bars cfgWin [] barsW
        = [_bar_to_row (mkBar 3 103), _bar_to_row (mkBar 4 104)]
    ∧ (update_bars cfgWin [] barsW).length = 2 := by
  have h := C6_window_eviction 2 3 barsW cfgWin bkTriv stTriv "EURUSD" ()
    (by decide) rfl
  exact ⟨h.1.trans (by decide), h.2.2.1.trans (by decide), h.2.2.2.1⟩

/-- C8: constructing an `Mt5Feed` or fetching rates by name with an
unrecognized timeframe name fails fast with the unsupported-timeframe
error — independently of the MT5 session and of any data fetch, which are
never consulted — while every recognized name resolves to its
`TIMEFRAME_MAP` constant, which is the timeframe used for the fetch. -/
theorem C8_timeframe_validation (name : String)
    (initRes : Except String Unit)
    (copy_rates_range : Int → Option (List Bar))
    (fetch : Int → Except String RawFrame) :
    (TIMEFRAME_MAP.lookup name = none →
      mt5FeedInit (Sum.inl name) initRes copy_rates_range
          = .error ("Unsupported timeframe name: " ++ name)
      ∧ fetch_rates_by_name name fetch
          = .error ("Unsupported timeframe " ++ name))
    ∧ (∀ tf : Int, TIMEFRAME_MAP.lookup name = some tf →
      _resolve_timeframe (Sum.inl name) = .ok tf
      ∧ fetch_rates_by_name name fetch = fetch tf
      ∧ mt5FeedInit (Sum.inl name) initRes copy_rates_range
          = (match initRes with
             | .error e => .error e
             | .ok _ =>
               match copy_rates_range tf with
               | none => .error "MT5 copy_rates_range failed"
               | some rates => .ok (tf, rates))) := by
  constructor
  · intro hmiss
    constructor
    · unfold mt5FeedInit _resolve_timeframe
      simp [hmiss]
    · unfold fetch_rates_by_name
      rw [hmiss]
  · intro tf htf
    refine ⟨?_, ?_, ?_⟩
    · unfold _resolve_timeframe
      simp [htf]
    · unfold fetch_rates_by_name
      rw [htf]
    · unfold mt5FeedInit _resolve_timeframe
      simp [htf]

/-- Witness for C8: the unknown name `x9` is rejected before touching the
session or fetch oracles; the known name `m5` resolves to the `M5`
constant and the fetch runs with it. -/
theorem C8_witness :
    mt5FeedInit (Sum.inl "x9") (.ok ()) (fun _ => some [])
        = .error ("Unsupported timeframe name: " ++ "x9")
    ∧ fetch_rates_by_name "x9" (fun _ => .ok (rawOfRows []))
        = .error ("Unsupported timeframe " ++ "x9")
    ∧ _resolve_timeframe (Sum.inl "m5") = .ok 5
    ∧ fetch_rates_by_name "m5" (fun _ => .ok (rawOfRows []))
        = .ok (rawOfRows [])
    ∧ mt5FeedInit (Sum.inl "m5") (.ok ()) (fun _ => some []) = .ok (5, []) := by
  have h1 := (C8_timeframe_validation "x9" (.ok ()) (fun _ => some [])
    (fun _ => .ok (rawOfRows []))).1 (by decide)
  have h2 := (C8_timeframe_validation "m5" (.ok ()) (fun _ => some [])
    (fun _ => .ok (rawOfRows []))).2 5 (by decide)
  exact ⟨h1.1, h1.2, h2.1, h2.2.1, h2.2.2⟩

end Hazeater
